import Mathlib

/-!
Verification development for the `expresser` repository: a single-line
arithmetic/relational expression evaluator consisting of a lexer
(`src/token.rs`), a recursive-descent parser and evaluator (`src/ast.rs`),
and pipeline glue (`src/main.rs`).

The Rust code is shallowly embedded: the mutable `TokenStream` becomes
explicit state passing, panics become error values of an explicit error
type, and the numeric type `Num = i128` is modelled as `Int` (the spec
directs that numeric behaviour be modelled with unbounded integers; all
claims stay far from the 128-bit boundary).
-/

deriving instance DecidableEq for Except

namespace Expresser

/-- The numeric type of the program: `type Num = i128;` in `main.rs`,
modelled as unbounded `Int`. -/
abbrev Num := Int

/-- Mirror of `enum Symbol` in `token.rs`: any non-numeric and
non-whitespace character, currently limited to operators and parentheses. -/
inductive Symbol where
  | plus | minus
  | asterisk
  | lessThan | biggerThan | equal
  | leftParenthesis | rightParenthesis
deriving DecidableEq, Repr, Fintype

/-- Mirror of `Symbol::parse_char` in `token.rs`. -/
def Symbol.parseChar (c : Char) : Option Symbol :=
  if c = '+' then some Symbol.plus
  else if c = '-' then some Symbol.minus
  else if c = '*' then some Symbol.asterisk
  else if c = '>' then some Symbol.biggerThan
  else if c = '<' then some Symbol.lessThan
  else if c = '=' then some Symbol.equal
  else if c = '(' then some Symbol.leftParenthesis
  else if c = ')' then some Symbol.rightParenthesis
  else none

/-- Mirror of `enum Token` in `token.rs`. -/
inductive Token where
  | op : Symbol → Token
  | number : Num → Token
  | whitespace : Char → Token
deriving DecidableEq, Repr

/-- Mirror of Rust `char::is_whitespace`: the Unicode `White_Space`
property (U+0009..U+000D, U+0020, U+0085, U+00A0, U+1680, U+2000..U+200A,
U+2028, U+2029, U+202F, U+205F, U+3000). -/
def rustIsWhitespace (c : Char) : Bool :=
  (9 ≤ c.toNat && c.toNat ≤ 13) || c.toNat == 32 || c.toNat == 133 ||
  c.toNat == 160 || c.toNat == 5760 || (8192 ≤ c.toNat && c.toNat ≤ 8202) ||
  c.toNat == 8232 || c.toNat == 8233 || c.toNat == 8239 || c.toNat == 8287 ||
  c.toNat == 12288

/-- Mirror of Rust `char::to_digit(10)`: the value of an ASCII decimal
digit, `none` for any other character. -/
def toDigit10 (c : Char) : Option Nat :=
  if 48 ≤ c.toNat && c.toNat ≤ 57 then some (c.toNat - 48) else none

/-- A character is a decimal digit exactly when `to_digit(10)` succeeds. -/
def isDigitChar (c : Char) : Bool :=
  (toDigit10 c).isSome

/-- Mirror of `struct TokenStream` in `token.rs`: a vector of tokens and a
zero-based cursor position. -/
structure TokenStream where
  tokens : List Token
  pos : Nat
deriving DecidableEq, Repr

/-- Mirror of `TokenStream::read`: the token under the cursor, or `none`
if the stream has finished. -/
def TokenStream.read (s : TokenStream) : Option Token :=
  if h : s.pos < s.tokens.length then some (s.tokens.get ⟨s.pos, h⟩) else none

/-- Embedding of `TokenStream::read` with its `&mut self` receiver made
explicit: the method returns a value and the (unchanged) stream state. -/
def TokenStream.readM (s : TokenStream) : Option Token × TokenStream :=
  (s.read, s)

/-- Mirror of `TokenStream::advance`: moves the cursor one token ahead,
unconditionally. -/
def TokenStream.advance (s : TokenStream) : TokenStream :=
  { s with pos := s.pos + 1 }

/-- Mirror of `TokenStream::new`. -/
def TokenStream.new (tokens : List Token) : TokenStream :=
  { tokens := tokens, pos := 0 }

/-- The scanning loop of `tokenize` in `token.rs`, one step per input
character, carrying the optional in-progress number accumulator
`current_number`, the tokens emitted so far, and the character index `i`
used in the panic message.  The Rust tokenization panic, which reports
the location `i`, is modelled as `Except.error i`.  The match arms appear
in source order: whitespace (with and without an active accumulator),
digits (the accumulator update is guarded by `num != 0`), operators, and
the catch-all error arm. -/
def tokenizeGo : List Char → Option Num → List Token → Nat → Except Nat (List Token)
  | [], curr, tokens, _ =>
      match curr with
      | some num => Except.ok (tokens ++ [Token.number num])
      | none => Except.ok tokens
  | c :: rest, curr, tokens, i =>
      if rustIsWhitespace c then
        match curr with
        | some num =>
            tokenizeGo rest none (tokens ++ [Token.number num, Token.whitespace c]) (i + 1)
        | none =>
            tokenizeGo rest none (tokens ++ [Token.whitespace c]) (i + 1)
      else
        match toDigit10 c, Symbol.parseChar c, curr with
        | some digit, _, some num =>
            if num ≠ 0 then tokenizeGo rest (some (num * 10 + (digit : Num))) tokens (i + 1)
            else Except.error i
        | some digit, _, none =>
            tokenizeGo rest (some (digit : Num)) tokens (i + 1)
        | none, some op, some num =>
            tokenizeGo rest none (tokens ++ [Token.number num, Token.op op]) (i + 1)
        | none, some op, none =>
            tokenizeGo rest none (tokens ++ [Token.op op]) (i + 1)
        | none, none, _ => Except.error i

/-- Mirror of `tokenize` in `token.rs`: transforms the input string into a
vector of tokens; a tokenization panic is modelled as `Except.error i`
where `i` is the offending character index. -/
def tokenize (input : String) : Except Nat (List Token) :=
  tokenizeGo input.data none [] 0

example : tokenize "2+2" =
    Except.ok [Token.number 2, Token.op Symbol.plus, Token.number 2] := by decide

example : tokenize "2 * 10" =
    Except.ok [Token.number 2, Token.whitespace ' ', Token.op Symbol.asterisk,
      Token.whitespace ' ', Token.number 10] := by decide

example : tokenize "" = Except.ok [] := by decide

example : tokenize "0001" = Except.error 1 := by decide

example : tokenize "abc" = Except.error 0 := by decide

/-- Mirror of `enum Operator` in `ast.rs`: the possible operators, each a
function on two integers; not the same as `Symbol` because it does not
include the parentheses. -/
inductive Operator where
  | summation | subtraction | multiplication
  | lessThanComparison | biggerThanComparison | equalityComparison
deriving DecidableEq, Repr

/-- Mirror of `Operator::apply` in `ast.rs`. -/
def Operator.apply (op : Operator) (left right : Num) : Num :=
  match op with
  | Operator.summation => left + right
  | Operator.subtraction => left - right
  | Operator.multiplication => left * right
  | Operator.lessThanComparison => if left < right then 1 else 0
  | Operator.biggerThanComparison => if left > right then 1 else 0
  | Operator.equalityComparison => if left = right then 1 else 0

/-- Mirror of `Operator::from_symbol` in `ast.rs`: tries to transform a
`Symbol` into an `Operator`; the parentheses have no counterpart. -/
def Operator.fromSymbol (symbol : Symbol) : Option Operator :=
  match symbol with
  | Symbol.plus => some Operator.summation
  | Symbol.minus => some Operator.subtraction
  | Symbol.asterisk => some Operator.multiplication
  | Symbol.lessThan => some Operator.lessThanComparison
  | Symbol.biggerThan => some Operator.biggerThanComparison
  | Symbol.equal => some Operator.equalityComparison
  | _ => none

/-- Mirror of `enum Expression` in `ast.rs`: an AST node, either a
constant literal or an operation on two subexpressions. -/
inductive Expression where
  | const : Num → Expression
  | action : Expression → Operator → Expression → Expression
deriving DecidableEq, Repr

/-- Mirror of `Expression::evaluate` in `ast.rs`. -/
def Expression.evaluate : Expression → Num
  | Expression.const val => val
  | Expression.action left act right => act.apply left.evaluate right.evaluate

/-- The panics of the parser in `ast.rs`, as explicit error values:
`unexpectedEnd` for `stream.read().unwrap()` on a finished stream,
`unexpectedToken` for the catch-all panic in `read_primary`,
`unmatchedParenthesis` for the failed `assert_eq!` on the closing
parenthesis, `trailingTokens` for the failed `assert_eq!(stream.read(),
None)` in `parse_tokens`, `internalInvariant` for a failed
`Operator::from_symbol(..).unwrap()`, and `outOfFuel` for exhaustion of
the fuel that embeds the Rust recursion (never reached with the fuel
`parseTokens` supplies on its inputs). -/
inductive ParseError where
  | unexpectedEnd
  | unexpectedToken
  | unmatchedParenthesis
  | trailingTokens
  | internalInvariant
  | outOfFuel
deriving DecidableEq, Repr

/-- Mirror of the guard `is_relation_symbol` in `read_relation`. -/
def isRelationSymbol (s : Symbol) : Bool :=
  s == Symbol.lessThan || s == Symbol.biggerThan || s == Symbol.equal

/-- Mirror of the guard `is_term_symbol` in `read_term`. -/
def isTermSymbol (s : Symbol) : Bool :=
  s == Symbol.plus || s == Symbol.minus

/-- Mirror of the guard `is_factor_symbol` in `read_factor`. -/
def isFactorSymbol (s : Symbol) : Bool :=
  s == Symbol.asterisk

/-- Result type of the parsing functions: an error, or the parsed
expression together with the updated stream state. -/
abbrev PResult := Except ParseError (Expression × TokenStream)

/-- Type of a parsing function with the mutable stream made explicit. -/
abbrev Reader := TokenStream → PResult

/-- Mirror of `read_primary` in `ast.rs`, parameterized by the
`read_relation` entry point (the single recursive back-edge of the
grammar, tied in `readRelation` below).  A primary is either a constant
literal or a subexpression wrapped in parentheses. -/
def readPrimary (readRel : Reader) (s : TokenStream) : PResult :=
  match s.read with
  | none => Except.error ParseError.unexpectedEnd
  | some (Token.number num) => Except.ok (Expression.const num, s.advance)
  | some (Token.op Symbol.leftParenthesis) =>
      match readRel s.advance with
      | Except.error e => Except.error e
      | Except.ok (expr, s1) =>
          match s1.read with
          | none => Except.error ParseError.unexpectedEnd
          | some t =>
              if t = Token.op Symbol.rightParenthesis then Except.ok (expr, s1.advance)
              else Except.error ParseError.unmatchedParenthesis
  | some _ => Except.error ParseError.unexpectedToken

/-- The `while let` loop of `read_factor` in `ast.rs`: folds further
`* primary` steps onto the expression parsed so far, left-associatively.
Fuel embeds the loop recursion. -/
def readFactorLoop (readRel : Reader) : Nat → Expression → TokenStream → PResult
  | 0, _, _ => Except.error ParseError.outOfFuel
  | fuel + 1, expr, s =>
      match s.read with
      | some (Token.op sym) =>
          if isFactorSymbol sym then
            match Operator.fromSymbol sym with
            | none => Except.error ParseError.internalInvariant
            | some op =>
                match readPrimary readRel s.advance with
                | Except.error e => Except.error e
                | Except.ok (rhs, s1) =>
                    readFactorLoop readRel fuel (Expression.action expr op rhs) s1
          else Except.ok (expr, s)
      | _ => Except.ok (expr, s)

/-- Mirror of `read_factor` in `ast.rs`: a primary followed by the
multiplication loop. -/
def readFactor (readRel : Reader) (fuel : Nat) (s : TokenStream) : PResult :=
  match readPrimary readRel s with
  | Except.error e => Except.error e
  | Except.ok (expr, s1) => readFactorLoop readRel fuel expr s1

/-- The `while let` loop of `read_term` in `ast.rs`. -/
def readTermLoop (readRel : Reader) : Nat → Expression → TokenStream → PResult
  | 0, _, _ => Except.error ParseError.outOfFuel
  | fuel + 1, expr, s =>
      match s.read with
      | some (Token.op sym) =>
          if isTermSymbol sym then
            match Operator.fromSymbol sym with
            | none => Except.error ParseError.internalInvariant
            | some op =>
                match readFactor readRel fuel s.advance with
                | Except.error e => Except.error e
                | Except.ok (rhs, s1) =>
                    readTermLoop readRel fuel (Expression.action expr op rhs) s1
          else Except.ok (expr, s)
      | _ => Except.ok (expr, s)

/-- Mirror of `read_term` in `ast.rs`: a factor followed by the
addition/subtraction loop. -/
def readTerm (readRel : Reader) (fuel : Nat) (s : TokenStream) : PResult :=
  match readFactor readRel fuel s with
  | Except.error e => Except.error e
  | Except.ok (expr, s1) => readTermLoop readRel fuel expr s1

/-- The `while let` loop of `read_relation` in `ast.rs`. -/
def readRelationLoop (readRel : Reader) : Nat → Expression → TokenStream → PResult
  | 0, _, _ => Except.error ParseError.outOfFuel
  | fuel + 1, expr, s =>
      match s.read with
      | some (Token.op sym) =>
          if isRelationSymbol sym then
            match Operator.fromSymbol sym with
            | none => Except.error ParseError.internalInvariant
            | some op =>
                match readTerm readRel fuel s.advance with
                | Except.error e => Except.error e
                | Except.ok (rhs, s1) =>
                    readRelationLoop readRel fuel (Expression.action expr op rhs) s1
          else Except.ok (expr, s)
      | _ => Except.ok (expr, s)

/-- Mirror of `read_relation` in `ast.rs`.  The fuel decreases on each
pass through a parenthesized primary, embedding the mutual recursion
`read_relation → read_term → read_factor → read_primary → read_relation`
of the source. -/
def readRelation : Nat → TokenStream → PResult
  | 0, _ => Except.error ParseError.outOfFuel
  | fuel + 1, s =>
      match readTerm (fun s2 => readRelation fuel s2) fuel s with
      | Except.error e => Except.error e
      | Except.ok (expr, s1) => readRelationLoop (fun s2 => readRelation fuel s2) fuel expr s1

/-- Fuel sufficient for any token list: each unit of parenthesis nesting
and each loop iteration consumes at least one token. -/
def parseFuel (tokens : List Token) : Nat :=
  tokens.length + 1

/-- Mirror of `parse_tokens` in `ast.rs`: parses the token vector into an
`Expression`; the failed `assert_eq!(stream.read(), None)` is the
`trailingTokens` error. -/
def parseTokens (tokens : List Token) : Except ParseError Expression :=
  match readRelation (parseFuel tokens) (TokenStream.new tokens) with
  | Except.error e => Except.error e
  | Except.ok (expr, s) =>
      match s.read with
      | none => Except.ok expr
      | some _ => Except.error ParseError.trailingTokens

/-- Mirror of `execute` in `main.rs`
(`ast::parse_tokens(token::tokenize(expr)).evaluate()`), which is also the
the function the spec names `evaluate_line`; the two panic families are
collapsed to `none`. -/
def evaluateLine (line : String) : Option Num :=
  match tokenize line with
  | Except.error _ => none
  | Except.ok ts =>
      match parseTokens ts with
      | Except.error _ => none
      | Except.ok expr => some expr.evaluate

example : evaluateLine "1+2*3" = some 7 := by decide
example : evaluateLine "(1+2)*3" = some 9 := by decide
example : evaluateLine "1-2-3" = some (-4) := by decide
example : evaluateLine "1>0" = some 1 := by decide
example : evaluateLine "1<0" = some 0 := by decide
example : evaluateLine "1=1" = some 1 := by decide
example : evaluateLine "2 * 10" = none := by decide
example : parseTokens [Token.number 2, Token.number 3] =
    Except.error ParseError.trailingTokens := by decide

/-- Recognizer for `Token.whitespace`. -/
def isWhitespaceTok : Token → Bool
  | Token.whitespace _ => true
  | _ => false

/-- Recognizer for `Token.number`. -/
def isNumberTok : Token → Bool
  | Token.number _ => true
  | _ => false

/-- Modelled from the spec: section 4.3 requires that "any implementation
must filter whitespace tokens out of the sequence before grammar
processing begins".  No such filtering exists anywhere in the source
(`parse_tokens` consumes the raw token vector); this definition exists
only to compare the behaviour of the code with the spec-mandated one. -/
def filterWhitespaceTokens (tokens : List Token) : List Token :=
  tokens.filter (fun t => !isWhitespaceTok t)

/-- Predicate: the token list contains two adjacent `Number` tokens. -/
def noAdjNumbers : List Token → Bool
  | [] => true
  | [_] => true
  | a :: b :: rest => !(isNumberTok a && isNumberTok b) && noAdjNumbers (b :: rest)

/-- The count of `Number` tokens in a token list. -/
def countNumbers (tokens : List Token) : Nat :=
  (tokens.filter isNumberTok).length

/-- The number of maximal unbroken digit runs in a character list; the
flag records whether the previous character was a digit (a run starts at
a digit whose predecessor is not a digit). -/
def runStarts : Bool → List Char → Nat
  | _, [] => 0
  | flag, c :: rest =>
      (if isDigitChar c && !flag then 1 else 0) + runStarts (isDigitChar c) rest

/-- The number of maximal unbroken digit runs in a string. -/
def digitRunCount (s : String) : Nat :=
  runStarts false s.data

/-- Detects a maximal digit run of length greater than 1 that begins with
the character `0`: a position whose predecessor is not a digit (the flag),
holding `0`, followed immediately by another digit. -/
def badZeroRunFrom : Bool → List Char → Bool
  | _, [] => false
  | flag, c :: rest =>
      (!flag && c == '0' && (match rest with
        | d :: _ => isDigitChar d
        | [] => false)) || badZeroRunFrom (isDigitChar c) rest

/-- The string contains a digit run of length greater than 1 beginning
with a leading zero. -/
def hasLeadingZeroRun (s : String) : Bool :=
  badZeroRunFrom false s.data

example : hasLeadingZeroRun "0001" = true := by decide
example : hasLeadingZeroRun "100" = false := by decide
example : hasLeadingZeroRun "2+01" = true := by decide
example : hasLeadingZeroRun "0" = false := by decide
example : hasLeadingZeroRun "10 0" = false := by decide
example : digitRunCount "2 * 10" = 2 := by decide

/-- C2: the parser implements the stated precedence (multiplication over
addition/subtraction over comparison, parentheses overriding) and left
associativity, so the end-to-end pipeline evaluates `1+2*3` to `7`,
`(1+2)*3` to `9`, and `1-2-3` to `-4`; the parse tree of `1-2-3` is the
left-folded `(1-2)-3`. -/
theorem precedence_and_left_associativity :
    evaluateLine "1+2*3" = some 7 ∧
    evaluateLine "(1+2)*3" = some 9 ∧
    evaluateLine "1-2-3" = some (-4) ∧
    parseTokens [Token.number 1, Token.op Symbol.minus, Token.number 2,
        Token.op Symbol.minus, Token.number 3] =
      Except.ok (Expression.action
        (Expression.action (Expression.const 1) Operator.subtraction (Expression.const 2))
        Operator.subtraction (Expression.const 3)) := by
  refine ⟨by decide, by decide, by decide, by decide⟩

/-- C3: `evaluate` computes each operator per the stated semantics:
`Summation` is addition, `Subtraction` subtraction, `Multiplication`
multiplication; the three comparisons return `1` when the relation holds
and `0` otherwise; a `Const` leaf returns its value, and an `Action` node
applies its operator to the recursively evaluated children. -/
theorem evaluate_operator_semantics :
    (∀ left right : Num, Operator.summation.apply left right = left + right) ∧
    (∀ left right : Num, Operator.subtraction.apply left right = left - right) ∧
    (∀ left right : Num, Operator.multiplication.apply left right = left * right) ∧
    (∀ left right : Num,
      Operator.lessThanComparison.apply left right = if left < right then 1 else 0) ∧
    (∀ left right : Num,
      Operator.biggerThanComparison.apply left right = if left > right then 1 else 0) ∧
    (∀ left right : Num,
      Operator.equalityComparison.apply left right = if left = right then 1 else 0) ∧
    (∀ val : Num, (Expression.const val).evaluate = val) ∧
    (∀ (left : Expression) (op : Operator) (right : Expression),
      (Expression.action left op right).evaluate = op.apply left.evaluate right.evaluate) := by
  exact ⟨fun _ _ => rfl, fun _ _ => rfl, fun _ _ => rfl, fun _ _ => rfl,
    fun _ _ => rfl, fun _ _ => rfl, fun _ => rfl, fun _ _ _ => rfl⟩

/-- C8: for every `TokenStream` state, `read` returns the token at the
current position when it is within the sequence and `none` past the end
(captured by the `getElem?` characterization); `read` mutates nothing
 (the explicit-state embedding returns the stream unchanged) and is
idempotent; `advance` increments the position by exactly one,
unconditionally, and leaves the token sequence untouched. -/
theorem tokenStream_read_advance (s : TokenStream) :
    s.readM.2 = s ∧
    s.readM.2.readM.1 = s.readM.1 ∧
    s.readM.1 = s.tokens[s.pos]? ∧
    s.advance.pos = s.pos + 1 ∧
    s.advance.tokens = s.tokens := by
  refine ⟨rfl, rfl, ?_, rfl, rfl⟩
  by_cases h : s.pos < s.tokens.length
  · simp [TokenStream.readM, TokenStream.read, h, List.getElem?_eq_getElem]
  · simp [TokenStream.readM, TokenStream.read, h, List.getElem?_eq_none,
      Nat.le_of_not_lt h]

/-- C1 (divergence witness): the parser does not filter `Whitespace`
tokens and does not behave as if they were absent.  Tokenizing `"2 * 10"`
succeeds with whitespace tokens preserved, but parsing that token
sequence fails with `trailingTokens` (the `Const 2` parses as a complete
relation and the first whitespace token is unconsumed remainder), so the
line `"2 * 10"` does not evaluate at all, while the spec-mandated
whitespace-filtered sequence parses and evaluates to `20`, as does the
whitespace-free line `"2*10"`. -/
theorem whitespace_tokens_break_parsing :
    tokenize "2 * 10" = Except.ok [Token.number 2, Token.whitespace ' ',
      Token.op Symbol.asterisk, Token.whitespace ' ', Token.number 10] ∧
    parseTokens [Token.number 2, Token.whitespace ' ', Token.op Symbol.asterisk,
      Token.whitespace ' ', Token.number 10] = Except.error ParseError.trailingTokens ∧
    filterWhitespaceTokens [Token.number 2, Token.whitespace ' ', Token.op Symbol.asterisk,
      Token.whitespace ' ', Token.number 10] =
      [Token.number 2, Token.op Symbol.asterisk, Token.number 10] ∧
    parseTokens [Token.number 2, Token.op Symbol.asterisk, Token.number 10] =
      Except.ok (Expression.action (Expression.const 2) Operator.multiplication
        (Expression.const 10)) ∧
    evaluateLine "2 * 10" = none ∧
    evaluateLine "2*10" = some 20 := by
  refine ⟨by decide, by decide, by decide, by decide, by decide, by decide⟩

/-- A whitespace character (Unicode `White_Space`) is never a decimal
digit. -/
theorem ws_toDigit_none {c : Char} (h : rustIsWhitespace c = true) :
    toDigit10 c = none := by
  rw [rustIsWhitespace] at h
  simp only [Bool.or_eq_true, Bool.and_eq_true, decide_eq_true_eq, beq_iff_eq] at h
  rw [toDigit10, if_neg]
  simp only [Bool.and_eq_true, decide_eq_true_eq, not_and, not_le]
  omega

/-- A decimal digit character is never whitespace. -/
theorem digit_not_ws {c : Char} {d : Nat} (h : toDigit10 c = some d) :
    rustIsWhitespace c = false := by
  have hc : 48 ≤ c.toNat ∧ c.toNat ≤ 57 := by
    by_cases hb : 48 ≤ c.toNat ∧ c.toNat ≤ 57
    · exact hb
    · rw [toDigit10, if_neg (by simpa using hb)] at h
      exact Option.noConfusion h
  rw [rustIsWhitespace]
  simp only [Bool.or_eq_false_iff, Bool.and_eq_false_iff, beq_eq_false_iff_ne, ne_eq,
    decide_eq_false_iff_not, not_le]
  omega

/-- C4 counterexample: the claim asserts the accumulator update
`acc = acc*10 + digit` happens for every active accumulator value, but the
source guards the update with `num != 0`: with an active accumulator
holding `0`, a digit character falls through every match arm into the
error arm.  Concretely, `"01"` (accumulator `0` active when `'1'` is read)
fails at index `1` instead of producing `Number(0*10+1) = Number(1)`, and
the scanning step itself errors on `'1'` with accumulator `some 0`. -/
theorem digit_update_zero_acc_counterexample :
    tokenize "01" = Except.error 1 ∧
    tokenize "01" ≠ Except.ok [Token.number 1] ∧
    tokenizeGo ['1'] (some 0) [] 1 = Except.error 1 ∧
    (0 : Num) * 10 + 1 = 1 := by
  refine ⟨by decide, by decide, by decide, by decide⟩

/-- C4 amended: whenever a digit character is encountered while a
*nonzero* number accumulator is active, the tokenizer updates the
accumulator to `acc*10 + digit` (a digit met while the accumulator holds
`0` is a tokenization error instead — the leading-zero rejection); at end
of input a still-active accumulator is flushed as a final `Number`
token. -/
theorem digit_update_and_final_flush :
    (∀ (c : Char) (n : Num) (d : Nat) (tokens : List Token) (i : Nat) (rest : List Char),
      toDigit10 c = some d → n ≠ 0 →
      tokenizeGo (c :: rest) (some n) tokens i =
        tokenizeGo rest (some (n * 10 + (d : Num))) tokens (i + 1)) ∧
    (∀ (n : Num) (tokens : List Token) (i : Nat),
      tokenizeGo [] (some n) tokens i = Except.ok (tokens ++ [Token.number n])) := by
  constructor
  · intro c n d tokens i rest hd hn
    rw [tokenizeGo, if_neg (by simp [digit_not_ws hd]), hd]
    simp [hn]
  · intro n tokens i
    rfl

/-- C4 amended witness: the accumulator `1` is updated to `1*10+1 = 11`
on reading the digit `'1'`, and `11` is flushed at end of input. -/
theorem digit_update_and_final_flush_witness :
    tokenizeGo ['1'] (some 1) [] 0 = Except.ok [Token.number 11] := by
  rw [digit_update_and_final_flush.1 '1' 1 1 [] 0 [] (by decide) (by decide)]
  decide

/-- Scanning invariant for leading-zero rejection: if the remaining input
contains a digit run of length greater than 1 beginning with `0` (relative
to the flag recording whether an accumulator is active, i.e. whether the
previous character was a digit), the scan fails.  The leading `0` of the run
necessarily starts with an empty accumulator, which then holds `0` when
the following digit arrives, and the `num != 0` guard sends that digit to
the catch-all error arm. -/
theorem tokenizeGo_leading_zero_fails :
    ∀ (l : List Char) (curr : Option Num) (tokens : List Token) (i : Nat),
      badZeroRunFrom curr.isSome l = true →
      ∃ j, tokenizeGo l curr tokens i = Except.error j := by
  intro l
  induction l with
  | nil =>
    intro curr tokens i hbad
    simp [badZeroRunFrom] at hbad
  | cons c rest ih =>
    intro curr tokens i hbad
    simp only [badZeroRunFrom, Bool.or_eq_true, Bool.and_eq_true, beq_iff_eq,
      Bool.not_eq_true'] at hbad
    by_cases hws : rustIsWhitespace c = true
    · have hdig : isDigitChar c = false := by
        rw [isDigitChar, ws_toDigit_none hws]; rfl
      have hrest : badZeroRunFrom false rest = true := by
        rcases hbad with ⟨⟨_, hc0⟩, _⟩ | h
        · subst hc0; exact absurd hws (by decide)
        · rw [← hdig]; exact h
      cases curr with
      | some num =>
        simp only [tokenizeGo, hws, if_true]
        exact ih none _ _ hrest
      | none =>
        simp only [tokenizeGo, hws, if_true]
        exact ih none _ _ hrest
    · rw [Bool.not_eq_true] at hws
      cases hd : toDigit10 c with
      | some d =>
        have hdig : isDigitChar c = true := by rw [isDigitChar, hd]; rfl
        cases curr with
        | none =>
          rcases hbad with ⟨⟨_, hc0⟩, hnext⟩ | h
          · subst hc0
            have hd0 : d = 0 := by
              have h0 : toDigit10 '0' = some 0 := by decide
              rw [h0] at hd
              exact (Option.some.inj hd).symm
            cases rest with
            | nil => exact absurd hnext (by decide)
            | cons e rest2 =>
              rcases Option.isSome_iff_exists.mp hnext with ⟨d2, hd2⟩
              refine ⟨i + 1, ?_⟩
              simp [tokenizeGo, hws, hd, hd0, digit_not_ws hd2, hd2]
          · simp only [tokenizeGo, hws, hd, if_false]
            rw [hdig] at h
            exact ih (some (d : Num)) _ _ h
        | some num =>
          rcases hbad with ⟨⟨hfl, _⟩, _⟩ | h
          · exact absurd hfl (by simp)
          · rw [hdig] at h
            by_cases hnum : num = 0
            · refine ⟨i, ?_⟩
              simp only [tokenizeGo, hws, hd, if_false, hnum]
              norm_num
            · simp only [tokenizeGo, hws, hd, if_false, if_pos hnum]
              exact ih (some (num * 10 + (d : Num))) _ _ h
      | none =>
        have hdig : isDigitChar c = false := by rw [isDigitChar, hd]; rfl
        have hrest : badZeroRunFrom false rest = true := by
          rcases hbad with ⟨⟨_, hc0⟩, _⟩ | h
          · subst hc0; exact absurd hd (by decide)
          · rw [← hdig]; exact h
        cases hsym : Symbol.parseChar c with
        | some op =>
          cases curr with
          | some num =>
            simp only [tokenizeGo, hws, hd, hsym, if_false]
            exact ih none _ _ hrest
          | none =>
            simp only [tokenizeGo, hws, hd, hsym, if_false]
            exact ih none _ _ hrest
        | none =>
          refine ⟨i, ?_⟩
          cases curr <;> simp [tokenizeGo, hws, hd, hsym]

/-- C5: tokenizing any input containing a digit run of length greater than
1 that begins with `'0'` fails; leading-zero multi-digit number literals
are rejected (by the `num != 0` guard on the accumulator update, not by an
explicit check). -/
theorem tokenize_leading_zero_run_fails (s : String) (h : hasLeadingZeroRun s = true) :
    ∃ i, tokenize s = Except.error i :=
  tokenizeGo_leading_zero_fails s.data none [] 0 h

/-- C5 witness: the test-suite input `"0001"` has a leading-zero run and
its tokenization fails. -/
theorem tokenize_leading_zero_run_fails_witness :
    ∃ i, tokenize "0001" = Except.error i :=
  tokenize_leading_zero_run_fails "0001" (by decide)

/-- Scanning invariant for unknown characters: if the remaining input
contains a character that is neither whitespace, a decimal digit, nor a
recognized symbol character, the scan fails: either an earlier arm errors
first, or the scan reaches the character and no match arm accepts it. -/
theorem tokenizeGo_unknown_char_fails :
    ∀ (l : List Char) (curr : Option Num) (tokens : List Token) (i : Nat),
      (∃ c ∈ l, rustIsWhitespace c = false ∧ toDigit10 c = none ∧ Symbol.parseChar c = none) →
      ∃ j, tokenizeGo l curr tokens i = Except.error j := by
  intro l
  induction l with
  | nil =>
    intro curr tokens i h
    simp at h
  | cons c rest ih =>
    intro curr tokens i h
    by_cases hws : rustIsWhitespace c = true
    · have hr : ∃ c2 ∈ rest, rustIsWhitespace c2 = false ∧ toDigit10 c2 = none ∧
          Symbol.parseChar c2 = none := by
        rcases h with ⟨c2, hmem, hprop⟩
        rcases List.mem_cons.mp hmem with rfl | hm
        · rw [hprop.1] at hws; exact Bool.noConfusion hws
        · exact ⟨c2, hm, hprop⟩
      cases curr with
      | some num =>
        simp only [tokenizeGo, hws, if_true]
        exact ih _ _ _ hr
      | none =>
        simp only [tokenizeGo, hws, if_true]
        exact ih _ _ _ hr
    · rw [Bool.not_eq_true] at hws
      cases hd : toDigit10 c with
      | some d =>
        have hr : ∃ c2 ∈ rest, rustIsWhitespace c2 = false ∧ toDigit10 c2 = none ∧
            Symbol.parseChar c2 = none := by
          rcases h with ⟨c2, hmem, hprop⟩
          rcases List.mem_cons.mp hmem with rfl | hm
          · rw [hprop.2.1] at hd; exact Option.noConfusion hd
          · exact ⟨c2, hm, hprop⟩
        cases curr with
        | none =>
          simp only [tokenizeGo, hws, hd]
          exact ih _ _ _ hr
        | some num =>
          by_cases hnum : num = 0
          · refine ⟨i, ?_⟩
            simp [tokenizeGo, hws, hd, hnum]
          · simp only [tokenizeGo, hws, hd, if_pos hnum]
            exact ih _ _ _ hr
      | none =>
        cases hsym : Symbol.parseChar c with
        | some op =>
          have hr : ∃ c2 ∈ rest, rustIsWhitespace c2 = false ∧ toDigit10 c2 = none ∧
              Symbol.parseChar c2 = none := by
            rcases h with ⟨c2, hmem, hprop⟩
            rcases List.mem_cons.mp hmem with rfl | hm
            · rw [hprop.2.2] at hsym; exact Option.noConfusion hsym
            · exact ⟨c2, hm, hprop⟩
          cases curr with
          | some num =>
            simp only [tokenizeGo, hws, hd, hsym]
            exact ih _ _ _ hr
          | none =>
            simp only [tokenizeGo, hws, hd, hsym]
            exact ih _ _ _ hr
        | none =>
          refine ⟨i, ?_⟩
          cases curr <;> simp [tokenizeGo, hws, hd, hsym]

/-- C6: tokenization fails (with a `TokenizationError` carrying the index
at which the scan gets stuck, modelled as `Except.error i`) whenever the
input contains a character that is neither whitespace, a recognized symbol
character, nor a decimal digit; no partial token sequence accompanies the
error (the error value carries only the index).  `tokenize "abc"` fails at
index `0`, whereas the empty input succeeds with the empty token
sequence. -/
theorem tokenize_unknown_char_fails :
    (∀ s : String,
      (∃ c ∈ s.data, rustIsWhitespace c = false ∧ toDigit10 c = none ∧
        Symbol.parseChar c = none) →
      ∃ i, tokenize s = Except.error i) ∧
    tokenize "abc" = Except.error 0 ∧
    tokenize "" = Except.ok [] := by
  refine ⟨fun s h => tokenizeGo_unknown_char_fails s.data none [] 0 h, by decide, by decide⟩

/-- C6 witness: the letter `'a'` in `"abc"` is neither whitespace, a
symbol, nor a digit, so tokenization fails. -/
theorem tokenize_unknown_char_fails_witness :
    ∃ i, tokenize "abc" = Except.error i :=
  tokenize_unknown_char_fails.1 "abc" ⟨'a', by decide, by decide, by decide, by decide⟩

/-- C7: parsing fails with `trailingTokens` whenever tokens remain after
the top-level relation has been fully consumed; in particular two adjacent
`Number` tokens fail at the top level, the first number having parsed as a
complete relation (`Const 1` with the cursor at position 1); remainder is
never silently ignored. -/
theorem parse_trailing_tokens :
    (∀ (ts : List Token) (expr : Expression) (s1 : TokenStream),
      readRelation (parseFuel ts) (TokenStream.new ts) = Except.ok (expr, s1) →
      s1.read ≠ none →
      parseTokens ts = Except.error ParseError.trailingTokens) ∧
    parseTokens [Token.number 1, Token.number 2] = Except.error ParseError.trailingTokens ∧
    readRelation (parseFuel [Token.number 1, Token.number 2])
        (TokenStream.new [Token.number 1, Token.number 2]) =
      Except.ok (Expression.const 1,
        { tokens := [Token.number 1, Token.number 2], pos := 1 }) := by
  refine ⟨?_, by decide, by decide⟩
  intro ts expr s1 h hne
  cases hr : s1.read with
  | none => exact absurd hr hne
  | some t => simp [parseTokens, h, hr]

/-- C7 witness: the two adjacent numbers `[1, 2]`: the relation parser
stops after `Const 1` with the cursor on the second number, and the top
level reports `trailingTokens`. -/
theorem parse_trailing_tokens_witness :
    parseTokens [Token.number 1, Token.number 2] = Except.error ParseError.trailingTokens :=
  parse_trailing_tokens.1 [Token.number 1, Token.number 2] (Expression.const 1)
    { tokens := [Token.number 1, Token.number 2], pos := 1 } (by decide) (by decide)

/-- Any guarded grammar symbol converts to an operator: the guards of the
three grammar loops only let through symbols with an `Operator`
counterpart. -/
theorem guard_fromSymbol_isSome :
    ∀ sym : Symbol,
      (isRelationSymbol sym = true ∨ isTermSymbol sym = true ∨ isFactorSymbol sym = true) →
      (Operator.fromSymbol sym).isSome = true := by decide

/-- `read_primary` never reports the internal-invariant failure, provided
the relation entry point it closes over never does. -/
theorem readPrimary_no_internal (readRel : Reader)
    (h : ∀ s2, readRel s2 ≠ Except.error ParseError.internalInvariant) (s : TokenStream) :
    readPrimary readRel s ≠ Except.error ParseError.internalInvariant := by
  rw [readPrimary]
  cases hread : s.read with
  | none => simp
  | some t =>
    cases t with
    | number num => simp
    | whitespace c => simp
    | op sym =>
      cases sym with
      | leftParenthesis =>
        cases hrr : readRel s.advance with
        | error e =>
          intro hc
          rw [Except.error.inj hc] at hrr
          exact h _ hrr
        | ok p =>
          cases p with
          | mk expr s1 =>
            cases hr2 : s1.read with
            | none => simp [hr2]
            | some t2 =>
              by_cases ht2 : t2 = Token.op Symbol.rightParenthesis <;> simp [hr2, ht2]
      | plus => simp
      | minus => simp
      | asterisk => simp
      | lessThan => simp
      | biggerThan => simp
      | equal => simp
      | rightParenthesis => simp

/-- The multiplication loop never reports the internal-invariant
failure. -/
theorem readFactorLoop_no_internal (readRel : Reader)
    (h : ∀ s2, readRel s2 ≠ Except.error ParseError.internalInvariant) :
    ∀ (fuel : Nat) (expr : Expression) (s : TokenStream),
      readFactorLoop readRel fuel expr s ≠ Except.error ParseError.internalInvariant := by
  intro fuel
  induction fuel with
  | zero => intro expr s; simp [readFactorLoop]
  | succ fuel ih =>
    intro expr s
    cases hread : s.read with
    | none => simp [readFactorLoop, hread]
    | some t =>
      cases t with
      | number num => simp [readFactorLoop, hread]
      | whitespace c => simp [readFactorLoop, hread]
      | op sym =>
        rw [readFactorLoop]
        simp only [hread]
        by_cases hg : isFactorSymbol sym = true
        · rw [if_pos hg]
          cases hfs : Operator.fromSymbol sym with
          | none =>
            have := guard_fromSymbol_isSome sym (Or.inr (Or.inr hg))
            rw [hfs] at this
            exact Bool.noConfusion this
          | some op =>
            cases hrp : readPrimary readRel s.advance with
            | error e =>
              intro hc
              rw [Except.error.inj hc] at hrp
              exact readPrimary_no_internal readRel h s.advance hrp
            | ok p =>
              cases p with
              | mk rhs s1 => exact ih _ _
        · rw [if_neg hg]; simp

/-- `read_factor` never reports the internal-invariant failure. -/
theorem readFactor_no_internal (readRel : Reader)
    (h : ∀ s2, readRel s2 ≠ Except.error ParseError.internalInvariant)
    (fuel : Nat) (s : TokenStream) :
    readFactor readRel fuel s ≠ Except.error ParseError.internalInvariant := by
  rw [readFactor]
  cases hrp : readPrimary readRel s with
  | error e =>
    intro hc
    rw [Except.error.inj hc] at hrp
    exact readPrimary_no_internal readRel h s hrp
  | ok p =>
    cases p with
    | mk expr s1 => exact readFactorLoop_no_internal readRel h fuel expr s1

/-- The addition/subtraction loop never reports the internal-invariant
failure. -/
theorem readTermLoop_no_internal (readRel : Reader)
    (h : ∀ s2, readRel s2 ≠ Except.error ParseError.internalInvariant) :
    ∀ (fuel : Nat) (expr : Expression) (s : TokenStream),
      readTermLoop readRel fuel expr s ≠ Except.error ParseError.internalInvariant := by
  intro fuel
  induction fuel with
  | zero => intro expr s; simp [readTermLoop]
  | succ fuel ih =>
    intro expr s
    cases hread : s.read with
    | none => simp [readTermLoop, hread]
    | some t =>
      cases t with
      | number num => simp [readTermLoop, hread]
      | whitespace c => simp [readTermLoop, hread]
      | op sym =>
        rw [readTermLoop]
        simp only [hread]
        by_cases hg : isTermSymbol sym = true
        · rw [if_pos hg]
          cases hfs : Operator.fromSymbol sym with
          | none =>
            have := guard_fromSymbol_isSome sym (Or.inr (Or.inl hg))
            rw [hfs] at this
            exact Bool.noConfusion this
          | some op =>
            cases hrf : readFactor readRel fuel s.advance with
            | error e =>
              intro hc
              rw [Except.error.inj hc] at hrf
              exact readFactor_no_internal readRel h fuel s.advance hrf
            | ok p =>
              cases p with
              | mk rhs s1 => exact ih _ _
        · rw [if_neg hg]; simp

/-- `read_term` never reports the internal-invariant failure. -/
theorem readTerm_no_internal (readRel : Reader)
    (h : ∀ s2, readRel s2 ≠ Except.error ParseError.internalInvariant)
    (fuel : Nat) (s : TokenStream) :
    readTerm readRel fuel s ≠ Except.error ParseError.internalInvariant := by
  rw [readTerm]
  cases hrf : readFactor readRel fuel s with
  | error e =>
    intro hc
    rw [Except.error.inj hc] at hrf
    exact readFactor_no_internal readRel h fuel s hrf
  | ok p =>
    cases p with
    | mk expr s1 => exact readTermLoop_no_internal readRel h fuel expr s1

/-- The comparison loop never reports the internal-invariant failure. -/
theorem readRelationLoop_no_internal (readRel : Reader)
    (h : ∀ s2, readRel s2 ≠ Except.error ParseError.internalInvariant) :
    ∀ (fuel : Nat) (expr : Expression) (s : TokenStream),
      readRelationLoop readRel fuel expr s ≠ Except.error ParseError.internalInvariant := by
  intro fuel
  induction fuel with
  | zero => intro expr s; simp [readRelationLoop]
  | succ fuel ih =>
    intro expr s
    cases hread : s.read with
    | none => simp [readRelationLoop, hread]
    | some t =>
      cases t with
      | number num => simp [readRelationLoop, hread]
      | whitespace c => simp [readRelationLoop, hread]
      | op sym =>
        rw [readRelationLoop]
        simp only [hread]
        by_cases hg : isRelationSymbol sym = true
        · rw [if_pos hg]
          cases hfs : Operator.fromSymbol sym with
          | none =>
            have := guard_fromSymbol_isSome sym (Or.inl hg)
            rw [hfs] at this
            exact Bool.noConfusion this
          | some op =>
            cases hrt : readTerm readRel fuel s.advance with
            | error e =>
              intro hc
              rw [Except.error.inj hc] at hrt
              exact readTerm_no_internal readRel h fuel s.advance hrt
            | ok p =>
              cases p with
              | mk rhs s1 => exact ih _ _
        · rw [if_neg hg]; simp

/-- `read_relation` never reports the internal-invariant failure, at any
fuel. -/
theorem readRelation_no_internal :
    ∀ (fuel : Nat) (s : TokenStream),
      readRelation fuel s ≠ Except.error ParseError.internalInvariant := by
  intro fuel
  induction fuel with
  | zero => intro s; simp [readRelation]
  | succ fuel ih =>
    intro s
    rw [readRelation]
    cases hrt : readTerm (fun s2 => readRelation fuel s2) fuel s with
    | error e =>
      intro hc
      rw [Except.error.inj hc] at hrt
      exact readTerm_no_internal _ ih fuel s hrt
    | ok p =>
      cases p with
      | mk expr s1 => exact readRelationLoop_no_internal _ ih fuel expr s1

/-- `parse_tokens` never reports the internal-invariant failure. -/
theorem parseTokens_no_internal (ts : List Token) :
    parseTokens ts ≠ Except.error ParseError.internalInvariant := by
  rw [parseTokens]
  cases hrr : readRelation (parseFuel ts) (TokenStream.new ts) with
  | error e =>
    intro hc
    rw [Except.error.inj hc] at hrr
    exact readRelation_no_internal _ _ hrr
  | ok p =>
    cases p with
    | mk expr s1 => cases hr2 : s1.read <;> simp [hr2]

/-- C9: `Operator::from_symbol` is a total function whose no-match case
is returned exactly for the two parenthesis symbols; at every grammar site
that invokes it (the loop bodies of `read_relation`, `read_term`,
`read_factor`), the guard on the just-read symbol guarantees the
conversion succeeds, so the no-match branch — the internal-invariant
failure behind the `unwrap` — is unreachable: no parse ever returns it. -/
theorem from_symbol_no_match_unreachable :
    (∀ sym : Symbol, Operator.fromSymbol sym = none ↔
      (sym = Symbol.leftParenthesis ∨ sym = Symbol.rightParenthesis)) ∧
    (∀ sym : Symbol, isRelationSymbol sym = true → (Operator.fromSymbol sym).isSome = true) ∧
    (∀ sym : Symbol, isTermSymbol sym = true → (Operator.fromSymbol sym).isSome = true) ∧
    (∀ sym : Symbol, isFactorSymbol sym = true → (Operator.fromSymbol sym).isSome = true) ∧
    (∀ (fuel : Nat) (s : TokenStream),
      readRelation fuel s ≠ Except.error ParseError.internalInvariant) ∧
    (∀ ts : List Token, parseTokens ts ≠ Except.error ParseError.internalInvariant) := by
  exact ⟨by decide, by decide, by decide, by decide,
    readRelation_no_internal, parseTokens_no_internal⟩

/-- C9 witness: the guard of the comparison loop lets `<` through and its
conversion succeeds; the parse of two adjacent numbers (which exercises
the top level) does not end in the internal-invariant failure. -/
theorem from_symbol_no_match_unreachable_witness :
    (Operator.fromSymbol Symbol.lessThan).isSome = true ∧
    parseTokens [Token.number 1, Token.number 2] ≠
      Except.error ParseError.internalInvariant :=
  ⟨from_symbol_no_match_unreachable.2.1 Symbol.lessThan (by decide),
   from_symbol_no_match_unreachable.2.2.2.2.2 [Token.number 1, Token.number 2]⟩

/-- The last token of a token list is not a `Number` (vacuously true for
the empty list).  This is the scanning invariant that makes the final
accumulator flush safe: every `Number` push during the scan is immediately
followed by a `Whitespace` or `Op` push in the same match arm. -/
def lastNotNumber (tokens : List Token) : Bool :=
  match tokens.getLast? with
  | some t => !isNumberTok t
  | none => true

/-- Unfolds `lastNotNumber` on a known last element. -/
theorem lastNotNumber_spec {xs : List Token} (h : lastNotNumber xs = true) :
    ∀ t, xs.getLast? = some t → isNumberTok t = false := by
  intro t ht
  rw [lastNotNumber, ht] at h
  simpa using h

/-- Appending one token moves the last element. -/
theorem lastNotNumber_append (xs : List Token) (a : Token) :
    lastNotNumber (xs ++ [a]) = !isNumberTok a := by
  rw [lastNotNumber, List.getLast?_concat]

/-- Appending a single token preserves the no-adjacent-numbers property
when the new pair at the boundary is not two numbers. -/
theorem noAdjNumbers_append_single (a : Token) :
    ∀ xs : List Token, noAdjNumbers xs = true →
      (∀ t, xs.getLast? = some t → (isNumberTok t && isNumberTok a) = false) →
      noAdjNumbers (xs ++ [a]) = true := by
  intro xs
  induction xs with
  | nil => intro _ _; rfl
  | cons x rest ih =>
    intro h hl
    cases rest with
    | nil =>
      have hx := hl x (by simp)
      simp [noAdjNumbers, hx]
    | cons y rest2 =>
      simp only [noAdjNumbers, Bool.and_eq_true] at h
      have hrec := ih h.2 (fun t ht => hl t (by rw [List.getLast?_cons_cons]; exact ht))
      simp only [List.cons_append] at hrec ⊢
      simp only [noAdjNumbers, Bool.and_eq_true]
      exact ⟨h.1, hrec⟩

/-- `countNumbers` distributes over append. -/
theorem countNumbers_append (xs ys : List Token) :
    countNumbers (xs ++ ys) = countNumbers xs + countNumbers ys := by
  simp [countNumbers, List.filter_append]

/-- Scanning invariant: on success, if the tokens emitted so far have no
two adjacent numbers and do not end in a number, the final token list has
no two adjacent numbers. -/
theorem tokenizeGo_noAdj :
    ∀ (l : List Char) (curr : Option Num) (tokens : List Token) (i : Nat) (res : List Token),
      tokenizeGo l curr tokens i = Except.ok res →
      noAdjNumbers tokens = true → lastNotNumber tokens = true →
      noAdjNumbers res = true := by
  intro l
  induction l with
  | nil =>
    intro curr tokens i res hok hadj hlast
    cases curr with
    | none =>
      rw [tokenizeGo] at hok
      rw [← Except.ok.inj hok]
      exact hadj
    | some num =>
      rw [tokenizeGo] at hok
      rw [← Except.ok.inj hok]
      exact noAdjNumbers_append_single _ tokens hadj
        (fun t ht => by rw [lastNotNumber_spec hlast t ht]; rfl)
  | cons c rest ih =>
    intro curr tokens i res hok hadj hlast
    by_cases hws : rustIsWhitespace c = true
    · cases curr with
      | some num =>
        simp only [tokenizeGo, hws, if_true] at hok
        have h1 : noAdjNumbers (tokens ++ [Token.number num]) = true :=
          noAdjNumbers_append_single _ tokens hadj
            (fun t ht => by rw [lastNotNumber_spec hlast t ht]; rfl)
        have h2 : noAdjNumbers ((tokens ++ [Token.number num]) ++ [Token.whitespace c]) = true :=
          noAdjNumbers_append_single _ _ h1
            (fun t ht => by simp [isNumberTok])
        have h3 : lastNotNumber ((tokens ++ [Token.number num]) ++ [Token.whitespace c]) = true := by
          rw [lastNotNumber_append]; rfl
        have heq : tokens ++ [Token.number num, Token.whitespace c] =
            (tokens ++ [Token.number num]) ++ [Token.whitespace c] := by simp
        rw [heq] at hok
        exact ih _ _ _ _ hok h2 h3
      | none =>
        simp only [tokenizeGo, hws, if_true] at hok
        have h2 : noAdjNumbers (tokens ++ [Token.whitespace c]) = true :=
          noAdjNumbers_append_single _ tokens hadj (fun t ht => by simp [isNumberTok])
        have h3 : lastNotNumber (tokens ++ [Token.whitespace c]) = true := by
          rw [lastNotNumber_append]; rfl
        exact ih _ _ _ _ hok h2 h3
    · rw [Bool.not_eq_true] at hws
      cases hd : toDigit10 c with
      | some d =>
        cases curr with
        | none =>
          simp only [tokenizeGo, hws, hd] at hok
          exact ih _ _ _ _ hok hadj hlast
        | some num =>
          by_cases hnum : num = 0
          · simp only [tokenizeGo, hws, hd, hnum] at hok
            simp at hok
          · simp only [tokenizeGo, hws, hd, if_pos hnum] at hok
            exact ih _ _ _ _ hok hadj hlast
      | none =>
        cases hsym : Symbol.parseChar c with
        | some op =>
          cases curr with
          | some num =>
            simp only [tokenizeGo, hws, hd, hsym] at hok
            have h1 : noAdjNumbers (tokens ++ [Token.number num]) = true :=
              noAdjNumbers_append_single _ tokens hadj
                (fun t ht => by rw [lastNotNumber_spec hlast t ht]; rfl)
            have h2 : noAdjNumbers ((tokens ++ [Token.number num]) ++ [Token.op op]) = true :=
              noAdjNumbers_append_single _ _ h1 (fun t ht => by simp [isNumberTok])
            have h3 : lastNotNumber ((tokens ++ [Token.number num]) ++ [Token.op op]) = true := by
              rw [lastNotNumber_append]; rfl
            have heq : tokens ++ [Token.number num, Token.op op] =
                (tokens ++ [Token.number num]) ++ [Token.op op] := by simp
            rw [heq] at hok
            exact ih _ _ _ _ hok h2 h3
          | none =>
            simp only [tokenizeGo, hws, hd, hsym] at hok
            have h2 : noAdjNumbers (tokens ++ [Token.op op]) = true :=
              noAdjNumbers_append_single _ tokens hadj (fun t ht => by simp [isNumberTok])
            have h3 : lastNotNumber (tokens ++ [Token.op op]) = true := by
              rw [lastNotNumber_append]; rfl
            exact ih _ _ _ _ hok h2 h3
        | none =>
          cases curr <;> simp [tokenizeGo, hws, hd, hsym] at hok

/-- Scanning invariant: on success, the number of `Number` tokens in the
output equals the count already emitted, plus one for a still-active
accumulator, plus the number of digit-run starts in the remaining
input. -/
theorem tokenizeGo_count :
    ∀ (l : List Char) (curr : Option Num) (tokens : List Token) (i : Nat) (res : List Token),
      tokenizeGo l curr tokens i = Except.ok res →
      countNumbers res = countNumbers tokens + (if curr.isSome then 1 else 0) +
        runStarts curr.isSome l := by
  intro l
  induction l with
  | nil =>
    intro curr tokens i res hok
    cases curr with
    | none =>
      rw [tokenizeGo] at hok
      rw [← Except.ok.inj hok]
      simp [runStarts]
    | some num =>
      rw [tokenizeGo] at hok
      rw [← Except.ok.inj hok]
      simp [runStarts, countNumbers_append, countNumbers, isNumberTok]
  | cons c rest ih =>
    intro curr tokens i res hok
    by_cases hws : rustIsWhitespace c = true
    · have hdig : isDigitChar c = false := by rw [isDigitChar, ws_toDigit_none hws]; rfl
      cases curr with
      | some num =>
        simp only [tokenizeGo, hws, if_true] at hok
        have hcount := ih _ _ _ _ hok
        simp [runStarts, hdig, countNumbers, List.filter_append, isNumberTok] at hcount ⊢
        omega
      | none =>
        simp only [tokenizeGo, hws, if_true] at hok
        have hcount := ih _ _ _ _ hok
        simp [runStarts, hdig, countNumbers, List.filter_append, isNumberTok] at hcount ⊢
        omega
    · rw [Bool.not_eq_true] at hws
      cases hd : toDigit10 c with
      | some d =>
        have hdig : isDigitChar c = true := by rw [isDigitChar, hd]; rfl
        cases curr with
        | none =>
          simp only [tokenizeGo, hws, hd] at hok
          have hcount := ih _ _ _ _ hok
          simp [runStarts, hdig, countNumbers] at hcount ⊢
          omega
        | some num =>
          by_cases hnum : num = 0
          · simp only [tokenizeGo, hws, hd, hnum] at hok
            simp at hok
          · simp only [tokenizeGo, hws, hd, if_pos hnum] at hok
            have hcount := ih _ _ _ _ hok
            simp [runStarts, hdig, countNumbers] at hcount ⊢
            omega
      | none =>
        have hdig : isDigitChar c = false := by rw [isDigitChar, hd]; rfl
        cases hsym : Symbol.parseChar c with
        | some op =>
          cases curr with
          | some num =>
            simp only [tokenizeGo, hws, hd, hsym] at hok
            have hcount := ih _ _ _ _ hok
            simp [runStarts, hdig, countNumbers, List.filter_append, isNumberTok] at hcount ⊢
            omega
          | none =>
            simp only [tokenizeGo, hws, hd, hsym] at hok
            have hcount := ih _ _ _ _ hok
            simp [runStarts, hdig, countNumbers, List.filter_append, isNumberTok] at hcount ⊢
            omega
        | none =>
          cases curr <;> simp [tokenizeGo, hws, hd, hsym] at hok

/-- C10: on every input whose tokenization succeeds, the token sequence
never contains two adjacent `Number` tokens, and each maximal unbroken
digit run of the input produces exactly one `Number` token (the count of
`Number` tokens equals the count of digit runs; a run is flushed only by
a following whitespace character, a following symbol character, or end of
input). -/
theorem tokenize_no_adjacent_numbers (s : String) (ts : List Token)
    (h : tokenize s = Except.ok ts) :
    noAdjNumbers ts = true ∧ countNumbers ts = digitRunCount s := by
  constructor
  · exact tokenizeGo_noAdj s.data none [] 0 ts h rfl rfl
  · have := tokenizeGo_count s.data none [] 0 ts h
    simpa [countNumbers, digitRunCount] using this

/-- C10 witness: the tokens of `"2 * 10"` have no adjacent numbers and
exactly as many `Number` tokens as the input has digit runs. -/
theorem tokenize_no_adjacent_numbers_witness :
    noAdjNumbers [Token.number 2, Token.whitespace ' ', Token.op Symbol.asterisk,
      Token.whitespace ' ', Token.number 10] = true ∧
    countNumbers [Token.number 2, Token.whitespace ' ', Token.op Symbol.asterisk,
      Token.whitespace ' ', Token.number 10] = digitRunCount "2 * 10" :=
  tokenize_no_adjacent_numbers "2 * 10"
    [Token.number 2, Token.whitespace ' ', Token.op Symbol.asterisk,
      Token.whitespace ' ', Token.number 10] (by decide)

end Expresser
